import Mathlib

/-! # page-visibility.js: a shallow embedding

The module `src/page-visibility.js` is a closure over one counter (`idCounter`) and one
object (`self`).  Its state is embedded as the record `PVState`; every method of `self`
becomes a function on that record.  What the host page supplies (`doc`, `win`, and the
properties every plain object inherits) is the record `Host`.

Conventions of the embedding:

* JavaScript values are the type `JSValue`.  Function objects are opaque identities: the
  bodies of subscriber callbacks are not part of the module, so invoking one is recorded as
  an `Invocation` and has no effect on the module state.
* `idCounter` is a JavaScript number that only ever holds integers; it is embedded as an
  exact `Int` (this is the JavaScript semantics for all counts below `2^53`).
* The registry `self._callbacks` is only ever written by `subscribe`, which stores functions
  under string keys; it is embedded as the list of its own properties in insertion order,
  which is the `for ... in` order of string keys that are not array indices.
* `self._isDestructing` and `self._inited` do not exist on the object literal (reading them
  gives `undefined`); they are embedded by their truthiness, initially `false`.
-/

namespace PageVisibility

/-! ## JavaScript values -/

/-- A JavaScript value.  Objects and functions are identified by an opaque reference. -/
inductive JSValue where
  | undefined
  | null
  | bool (b : Bool)
  | number (n : Int)
  | string (s : String)
  | object (ref : Nat)
  | function (f : Nat)
  deriving DecidableEq, Repr

/-- The `typeof` operator. -/
def JSValue.typeof : JSValue → String
  | .undefined => "undefined"
  | .null => "object"
  | .bool _ => "boolean"
  | .number _ => "number"
  | .string _ => "string"
  | .object _ => "object"
  | .function _ => "function"

/-- The `ToBoolean` conversion used by `if`, `&&` and `||`. -/
def JSValue.truthy : JSValue → Bool
  | .undefined => false
  | .null => false
  | .bool b => b
  | .number n => n != 0
  | .string s => s != ""
  | .object _ => true
  | .function _ => true

/-- The `a || b` operator on values. -/
def JSValue.or (a b : JSValue) : JSValue :=
  if a.truthy then a else b

/-- Own properties of a plain object, in insertion order. -/
abbrev Props (α : Type) := List (String × α)

/-- The own property names, in insertion order. -/
def Props.keys {α : Type} (o : Props α) : List String :=
  o.map Prod.fst

/-- The own property values, in insertion order of their names. -/
def Props.values {α : Type} (o : Props α) : List α :=
  o.map Prod.snd

/-- The own property stored under `k`, if any. -/
def Props.getOwn {α : Type} (o : Props α) (k : String) : Option α :=
  (o.find? (fun p => p.1 == k)).map Prod.snd

/-- The test `o.hasOwnProperty(k)`. -/
def Props.hasOwn {α : Type} (o : Props α) (k : String) : Bool :=
  o.any (fun p => p.1 == k)

/-- The assignment `o[k] = v`: an existing own property keeps its place, a new one is added
last. -/
def Props.set {α : Type} (o : Props α) (k : String) (v : α) : Props α :=
  if o.hasOwn k then o.map (fun p => if p.1 == k then (k, v) else p) else o ++ [(k, v)]

/-- The statement `delete o[k]`: removes the own property `k`; nothing inherited is
touched. -/
def Props.delete {α : Type} (o : Props α) (k : String) : Props α :=
  o.filter (fun p => !(p.1 == k))

/-! ## The host environment -/

/-- A raw event object delivered by the host: its `type` name and the rest of its payload. -/
structure Event where
  type : String
  payload : Nat
  deriving DecidableEq, Repr

/-- What the module reads from `doc`, `win` and `Object.prototype` at one moment. -/
structure Host where
  /-- The test `'hidden' in doc`. -/
  hasHidden : Bool
  /-- The test `'webkitHidden' in doc`. -/
  hasWebkitHidden : Bool
  /-- The test `'onfocusin' in doc`. -/
  hasOnfocusin : Bool
  /-- The value `doc.webkitVisibilityState`. -/
  webkitVisibilityState : JSValue
  /-- The value `doc.visibilityState`. -/
  visibilityState : JSValue
  /-- The value `win.event`: an event object, or `undefined`. -/
  winEvent : Option Event
  /-- The properties of `Object.prototype`, inherited by every object literal (the built-in
  `hasOwnProperty` itself is taken to behave as the language defines it). -/
  objectProto : Props JSValue
  deriving DecidableEq, Repr

/-- The operator `k in o` for an object literal `o`: own or inherited. -/
def Host.hasProperty (host : Host) (o : Props JSValue) (k : String) : Bool :=
  o.hasOwn k || host.objectProto.hasOwn k

/-- The read `o[k]` for an object literal `o`: own first, then inherited, else `undefined`. -/
def Host.get (host : Host) (o : Props JSValue) (k : String) : JSValue :=
  match o.getOwn k with
  | some v => v
  | none =>
    match host.objectProto.getOwn k with
    | some v => v
    | none => .undefined

/-- The expression `doc.webkitVisibilityState || doc.visibilityState`. -/
def Host.nativeState (host : Host) : JSValue :=
  host.webkitVisibilityState.or host.visibilityState

/-- The standard function-valued properties of `Object.prototype` (ECMAScript 5.1,
section 15.2.4), each an opaque built-in function. -/
def stdObjectProto : Props JSValue :=
  [("constructor", .function 1000), ("toString", .function 1001),
   ("toLocaleString", .function 1002), ("valueOf", .function 1003),
   ("hasOwnProperty", .function 1004), ("isPrototypeOf", .function 1005),
   ("propertyIsEnumerable", .function 1006)]

/-! ## The module state -/

/-- The record `self._visibilityState`. -/
structure VisibilityState where
  current : JSValue
  prev : JSValue
  deriving DecidableEq, Repr

/-- The object a listener is installed on. -/
inductive Target where
  | doc
  | win
  deriving DecidableEq, Repr

/-- One listener installation made by `_init`. -/
inductive Listener where
  /-- The call `target.addEventListener(name, listener)` with an optional third argument. -/
  | addEventListener (target : Target) (name : String) (useCapture : Option Bool)
  /-- The call `target.attachEvent(name, listener)`. -/
  | attachEvent (target : Target) (name : String)
  deriving DecidableEq, Repr

/-- The closure variable `idCounter`, the fields of `self`, and the listeners the module has
installed into the host so far. -/
structure PVState where
  idCounter : Int
  _visibilityState : VisibilityState
  _isNative : Bool
  _callbacks : Props Nat
  _isDestructing : Bool
  _inited : Bool
  listeners : List Listener
  deriving DecidableEq, Repr

/-- The state right after the object literal is built, before `self._init()` runs. -/
def initial : PVState :=
  { idCounter := -1
    _visibilityState := { current := .undefined, prev := .undefined }
    _isNative := false
    _callbacks := []
    _isDestructing := false
    _inited := false
    listeners := [] }

/-- The constant `self.STATE_VISIBLE`. -/
def STATE_VISIBLE : JSValue := .string "visible"

/-- The constant `self.STATE_HIDDEN`. -/
def STATE_HIDDEN : JSValue := .string "hidden"

/-- One call `self._callbacks[c].call(doc, event, self._visibilityState)`: the key, the
function called, and its two arguments as they are at the time of the call. -/
structure Invocation where
  listenerId : String
  callback : Nat
  event : Option Event
  state : VisibilityState
  deriving DecidableEq, Repr

/-- An exception raised by the language itself. -/
inductive JSError where
  | typeError
  deriving DecidableEq, Repr

/-- What a run of the change handler leaves behind: the module state, the subscriber calls it
made in order, and the exception it ended with, if any. -/
structure Outcome where
  st : PVState
  calls : List Invocation
  error : Option JSError
  deriving DecidableEq, Repr

/-! ## The methods of `self` -/

/-- The method `isHidden`. -/
def isHidden (s : PVState) : Bool :=
  s._visibilityState.current == STATE_HIDDEN

/-- The method `getVisibilityState`. -/
def getVisibilityState (s : PVState) : VisibilityState :=
  s._visibilityState

/-- The method `isNativelySupported`. -/
def isNativelySupported (s : PVState) : Bool :=
  s._isNative

/-- The method `_uniqId`: pre-increments the counter and formats it. -/
def _uniqId (s : PVState) : PVState × String :=
  let n := s.idCounter + 1
  ({ s with idCounter := n }, "pageVisibility_" ++ toString n)

/-- The method `subscribe`: returns the new state and the returned value (`undefined` when
the function falls off its end). -/
def subscribe (callback : JSValue) (s : PVState) : PVState × JSValue :=
  match callback with
  | .function f =>
    let (s1, listenerId) := _uniqId s
    ({ s1 with _callbacks := s1._callbacks.set listenerId f }, .string listenerId)
  | _ => (s, .undefined)

/-- The value read by `self._callbacks[listenerId]`. -/
def callbackAt (host : Host) (s : PVState) (listenerId : String) : JSValue :=
  match s._callbacks.getOwn listenerId with
  | some f => .function f
  | none =>
    match host.objectProto.getOwn listenerId with
    | some v => v
    | none => .undefined

/-- The method `unsubscribe`. -/
def unsubscribe (host : Host) (listenerId : String) (s : PVState) : PVState :=
  if (callbackAt host s listenerId).truthy && !s._isDestructing then
    { s with _callbacks := s._callbacks.delete listenerId }
  else s

/-- The table `eventMap` local to `_onChange`. -/
def eventMap : Props JSValue :=
  [("focus", STATE_VISIBLE), ("focusin", STATE_VISIBLE), ("pageshow", STATE_VISIBLE),
   ("blur", STATE_HIDDEN), ("focusout", STATE_HIDDEN), ("pagehide", STATE_HIDDEN)]

/-- The method `_notifySubscribers`: the calls made, in `for ... in` order.  Every entry of
the registry is an own property, so the `hasOwnProperty` test holds for each. -/
def _notifySubscribers (event : Option Event) (s : PVState) : List Invocation :=
  (s._callbacks.filter
      (fun p => s._callbacks.hasOwn p.1 && (JSValue.function p.2).truthy)).map
    (fun p => { listenerId := p.1, callback := p.2, event := event,
                state := s._visibilityState })

/-- The state after `self._visibilityState.prev = self._visibilityState.current`. -/
def savePrev (s : PVState) : PVState :=
  { s with _visibilityState := { s._visibilityState with prev := s._visibilityState.current } }

/-- The state with `self._visibilityState.current` assigned. -/
def setCurrent (v : JSValue) (s : PVState) : PVState :=
  { s with _visibilityState := { s._visibilityState with current := v } }

/-- The method `_onChange`. -/
def _onChange (host : Host) (event : Option Event) (s : PVState) : Outcome :=
  if s._isDestructing then { st := s, calls := [], error := none }
  else
    let event := match event with
      | some e => some e
      | none => host.winEvent
    let s1 := savePrev s
    if isNativelySupported s1 then
      let s2 := setCurrent host.nativeState s1
      { st := s2, calls := _notifySubscribers event s2, error := none }
    else
      match event with
      | none => { st := s1, calls := [], error := some .typeError }
      | some e =>
        if host.hasProperty eventMap e.type then
          let s2 := setCurrent (host.get eventMap e.type) s1
          { st := s2, calls := _notifySubscribers event s2, error := none }
        else
          let s2 := setCurrent STATE_VISIBLE s1
          { st := s2, calls := _notifySubscribers event s2, error := none }

/-- The method `_init`. -/
def _init (host : Host) (s : PVState) : PVState :=
  if s._inited then s
  else
    let s1 : PVState := { s with _isNative := host.hasHidden || host.hasWebkitHidden }
    let s2 : PVState :=
      if s1._isNative then
        let s1a := setCurrent host.nativeState s1
        { s1a with listeners := s1a.listeners ++
            [.addEventListener .doc
              ((if host.hasWebkitHidden then "webkit" else "") ++ "visibilitychange") none] }
      else if host.hasOnfocusin then
        { s1 with listeners := s1.listeners ++
            [.attachEvent .doc "onfocusin", .attachEvent .doc "onfocusout"] }
      else
        { s1 with listeners := s1.listeners ++
            [.addEventListener .win "focus" (some true),
             .addEventListener .win "blur" (some true)] }
    { s2 with _inited := true }

/-! ## Runs -/

/-- A raw signal: the event object the host delivers, with what the host reports at that
moment. -/
structure Signal where
  host : Host
  event : Event
  deriving DecidableEq, Repr

/-- The change handler applied to one signal. -/
def process (sig : Signal) (s : PVState) : Outcome :=
  _onChange sig.host (some sig.event) s

/-- The state after a sequence of signals, oldest first. -/
def run (sigs : List Signal) (s : PVState) : PVState :=
  sigs.foldl (fun acc sig => (process sig acc).st) s

/-- One use of the module: a public method, the change handler, or `_init`. -/
inductive Call where
  | isHidden
  | getVisibilityState
  | subscribe (callback : JSValue)
  | unsubscribe (host : Host) (listenerId : String)
  | isNativelySupported
  | onChange (host : Host) (event : Option Event)
  | init (host : Host)
  deriving DecidableEq, Repr

/-- The module state after one call. -/
def Call.exec : Call → PVState → PVState
  | .isHidden, s => s
  | .getVisibilityState, s => s
  | .subscribe callback, s => (PageVisibility.subscribe callback s).1
  | .unsubscribe host listenerId, s => PageVisibility.unsubscribe host listenerId s
  | .isNativelySupported, s => s
  | .onChange host event, s => (_onChange host event s).st
  | .init host, s => _init host s

/-- The identifier a call hands back to its caller: only a `subscribe` that returns a string
hands one back. -/
def Call.issued : Call → PVState → Option String
  | .subscribe callback, s =>
    match (PageVisibility.subscribe callback s).2 with
    | JSValue.string id => some id
    | _ => none
  | _, _ => none

/-- The module state after a sequence of calls, oldest first. -/
def execAll (calls : List Call) (s : PVState) : PVState :=
  calls.foldl (fun acc c => c.exec acc) s

/-- The identifiers handed back during a sequence of calls, oldest first. -/
def issuedIds : List Call → PVState → List String
  | [], _ => []
  | c :: rest, s =>
    match c.issued s with
    | some id => id :: issuedIds rest (c.exec s)
    | none => issuedIds rest (c.exec s)

/-- The registry invariant of the module: no key occurs twice, and every key is an identifier
that `_uniqId` has already produced. -/
def RegistryOk (s : PVState) : Prop :=
  (Props.keys s._callbacks).Nodup ∧
  ∀ k ∈ Props.keys s._callbacks,
    ∃ n : Int, n ≤ s.idCounter ∧ k = "pageVisibility_" ++ toString n

/-! ## Reading decimal numerals back (used to show that `String(n)` is injective) -/

/-- The value of a decimal digit character. -/
def digitValue (c : Char) : Nat := c.toNat - 48

/-- Reads a list of decimal digits, most significant first, onto an accumulator. -/
def readDigits (acc : Nat) (cs : List Char) : Nat :=
  cs.foldl (fun a c => 10 * a + digitValue c) acc

/-- Reads a decimal numeral with an optional leading minus sign. -/
def readInt : List Char → Int
  | '-' :: cs => -(readDigits 0 cs : Int)
  | cs => (readDigits 0 cs : Int)

/-! ## Concrete environments -/

/-- A host without the native indicator and without `onfocusin`: the module runs in fallback
mode on window focus and blur. -/
def fallbackHost : Host :=
  { hasHidden := false
    hasWebkitHidden := false
    hasOnfocusin := false
    webkitVisibilityState := .undefined
    visibilityState := .undefined
    winEvent := none
    objectProto := stdObjectProto }

/-- A host with the standard native indicator, reporting the given visibility state. -/
def nativeHost (visibilityState : JSValue) : Host :=
  { hasHidden := true
    hasWebkitHidden := false
    hasOnfocusin := false
    webkitVisibilityState := .undefined
    visibilityState := visibilityState
    winEvent := none
    objectProto := stdObjectProto }

/-- A module in the teardown condition: the fallback-mode module with one subscriber, on
which an embedder has set `self._isDestructing`. -/
def teardownState : PVState :=
  { (subscribe (.function 3) (_init fallbackHost initial)).1 with _isDestructing := true }

/-- How many calls of a sequence are `subscribe` calls with a callable argument. -/
def callableCount : List Call → Nat
  | [] => 0
  | .subscribe (.function _) :: rest => callableCount rest + 1
  | _ :: rest => callableCount rest

/-- The identifier text `_uniqId` makes from a counter value that is a natural number. -/
def idOfNat (n : Nat) : String :=
  "pageVisibility_" ++ toString n

/-! ## General facts about the change handler -/

theorem onChange_frame (host : Host) (event : Option Event) (s : PVState) :
    (_onChange host event s).st.idCounter = s.idCounter ∧
    (_onChange host event s).st._isNative = s._isNative ∧
    (_onChange host event s).st._callbacks = s._callbacks ∧
    (_onChange host event s).st._isDestructing = s._isDestructing ∧
    (_onChange host event s).st._inited = s._inited ∧
    (_onChange host event s).st.listeners = s.listeners := by
  cases s with
  | mk c vs nat cbs d i ls =>
    cases d <;> cases nat <;> cases event <;> cases hw : host.winEvent <;>
      simp [_onChange, isNativelySupported, savePrev, setCurrent, hw] <;>
      split <;> simp

theorem onChange_prev (host : Host) (event : Option Event) (s : PVState)
    (hd : s._isDestructing = false) :
    (_onChange host event s).st._visibilityState.prev = s._visibilityState.current := by
  cases s with
  | mk c vs nat cbs d i ls =>
    simp only at hd
    subst hd
    cases nat <;> cases event <;> cases hw : host.winEvent <;>
      simp [_onChange, isNativelySupported, savePrev, setCurrent, hw] <;>
      split <;> simp

theorem run_snoc (sigs : List Signal) (sig : Signal) (s : PVState) :
    run (sigs ++ [sig]) s = (process sig (run sigs s)).st := by
  simp [run, List.foldl_append]

theorem run_frame (sigs : List Signal) :
    ∀ s : PVState, (run sigs s).idCounter = s.idCounter ∧
      (run sigs s)._isNative = s._isNative ∧
      (run sigs s)._callbacks = s._callbacks ∧
      (run sigs s)._isDestructing = s._isDestructing ∧
      (run sigs s)._inited = s._inited ∧
      (run sigs s).listeners = s.listeners := by
  induction sigs with
  | nil => intro s; simp [run]
  | cons sig rest ih =>
    intro s
    have h1 := onChange_frame sig.host (some sig.event) s
    have h2 := ih (process sig s).st
    simp only [run, List.foldl_cons] at h2 ⊢
    simp only [process] at h2 ⊢
    obtain ⟨a1, a2, a3, a4, a5, a6⟩ := h1
    obtain ⟨b1, b2, b3, b4, b5, b6⟩ := h2
    exact ⟨b1.trans a1, b2.trans a2, b3.trans a3, b4.trans a4, b5.trans a5, b6.trans a6⟩

/-- The value of `current` after a processed signal, by capability mode. -/
theorem process_current (sig : Signal) (s : PVState) (hd : s._isDestructing = false) :
    (process sig s).st._visibilityState.current =
      if s._isNative then sig.host.nativeState
      else if sig.host.hasProperty eventMap sig.event.type
        then sig.host.get eventMap sig.event.type
        else STATE_VISIBLE := by
  cases s with
  | mk c vs nat cbs d i ls =>
    simp only at hd
    subst hd
    cases nat
    · simp only [process, _onChange, isNativelySupported, savePrev, setCurrent]
      simp only [Bool.false_eq_true, if_false]
      split <;> rfl
    · simp [process, _onChange, isNativelySupported, savePrev, setCurrent]

theorem init_initial (host : Host) :
    (_init host initial)._isDestructing = false ∧
    (_init host initial)._isNative = (host.hasHidden || host.hasWebkitHidden) ∧
    (_init host initial)._visibilityState.current =
      (if host.hasHidden || host.hasWebkitHidden then host.nativeState else .undefined) := by
  unfold _init initial
  simp only [Bool.false_eq_true, if_false]
  cases host.hasHidden <;> cases host.hasWebkitHidden <;> cases host.hasOnfocusin <;>
    simp [setCurrent]

/-! ## C1 -/

/-- C1, as stated, fails in native mode: `_init` reads the native indicator into `current`, so
after the first processed signal `prev` is that value (`'visible'` here), not `undefined`. -/
theorem C1_counterexample :
    isNativelySupported (_init (nativeHost (.string "visible")) initial) = true ∧
    (run [⟨nativeHost (.string "visible"), ⟨"visibilitychange", 0⟩⟩]
        (_init (nativeHost (.string "visible")) initial))._visibilityState.prev
      = .string "visible" ∧
    (run [⟨nativeHost (.string "visible"), ⟨"visibilitychange", 0⟩⟩]
        (_init (nativeHost (.string "visible")) initial))._visibilityState.prev
      ≠ .undefined := by
  decide

/-- C1 (amended): after initialization on any host, for every sequence of raw signals, `prev`
after the N-th processed signal equals `current` as it was after the (N-1)-th, where
`current` after zero signals is what `_init` left: `undefined` in fallback mode, and the
native indicator value read by `_init` in native mode. -/
theorem C1_prev_is_last_current (host0 : Host) (sigs : List Signal) (sig : Signal) :
    (run (sigs ++ [sig]) (_init host0 initial))._visibilityState.prev
      = (run sigs (_init host0 initial))._visibilityState.current ∧
    isNativelySupported (_init host0 initial) = (host0.hasHidden || host0.hasWebkitHidden) ∧
    (run [] (_init host0 initial))._visibilityState.current
      = (if host0.hasHidden || host0.hasWebkitHidden then host0.nativeState
         else .undefined) := by
  obtain ⟨hd, hn, hc⟩ := init_initial host0
  refine ⟨?_, hn, hc⟩
  rw [run_snoc]
  exact onChange_prev _ _ _ (((run_frame sigs _).2.2.2.1).trans hd)

/-! ## C2 -/

/-- C2, as stated, fails in native mode: when the indicator reports `'prerender'`, `current`
after the signal is `'prerender'`, neither `'visible'` nor `'hidden'`. -/
theorem C2_counterexample :
    (run [⟨nativeHost (.string "prerender"), ⟨"visibilitychange", 0⟩⟩]
        (_init (nativeHost (.string "visible")) initial))._visibilityState.current
      = .string "prerender" ∧
    (run [⟨nativeHost (.string "prerender"), ⟨"visibilitychange", 0⟩⟩]
        (_init (nativeHost (.string "visible")) initial))._visibilityState.current
      ≠ STATE_VISIBLE ∧
    (run [⟨nativeHost (.string "prerender"), ⟨"visibilitychange", 0⟩⟩]
        (_init (nativeHost (.string "visible")) initial))._visibilityState.current
      ≠ STATE_HIDDEN := by
  decide

theorem eventMap_get_of_hasOwn (host : Host) (k : String) (hk : eventMap.hasOwn k = true) :
    host.get eventMap k = STATE_VISIBLE ∨ host.get eventMap k = STATE_HIDDEN := by
  have hk2 : k = "focus" ∨ k = "focusin" ∨ k = "pageshow" ∨ k = "blur" ∨ k = "focusout" ∨
      k = "pagehide" := by
    simp only [Props.hasOwn, eventMap, List.any_cons, List.any_nil, Bool.or_false,
      Bool.or_eq_true, beq_iff_eq] at hk
    rcases hk with h | h | h | h | h | h <;> simp [← h]
  rcases hk2 with h | h | h | h | h | h <;> subst h
  · exact Or.inl rfl
  · exact Or.inl rfl
  · exact Or.inl rfl
  · exact Or.inr rfl
  · exact Or.inr rfl
  · exact Or.inr rfl

/-- C2 (amended): after one or more processed signals (teardown not active), in native mode
`current` is exactly the value of `doc.webkitVisibilityState || doc.visibilityState` at the
last signal, whatever the host reports; in fallback mode `current` is `'visible'` or `'hidden'`
whenever the last event's type is one of the six table entries or is not the name of a
property inherited from `Object.prototype`. -/
theorem C2_current_by_mode (s : PVState) (hd : s._isDestructing = false)
    (sigs : List Signal) (sig : Signal) :
    (s._isNative = true →
      (run (sigs ++ [sig]) s)._visibilityState.current = sig.host.nativeState) ∧
    (s._isNative = false →
      (eventMap.hasOwn sig.event.type = true ∨
        sig.host.objectProto.hasOwn sig.event.type = false) →
      (run (sigs ++ [sig]) s)._visibilityState.current = STATE_VISIBLE ∨
      (run (sigs ++ [sig]) s)._visibilityState.current = STATE_HIDDEN) := by
  obtain ⟨-, hn, -, hd2, -, -⟩ := run_frame sigs s
  rw [run_snoc, process_current sig _ (hd2.trans hd), hn]
  constructor
  · intro h
    simp [h]
  · intro h hty
    simp only [h, Bool.false_eq_true, if_false]
    by_cases hown : eventMap.hasOwn sig.event.type = true
    · have hp : sig.host.hasProperty eventMap sig.event.type = true := by
        simp [Host.hasProperty, hown]
      rw [if_pos hp]
      exact eventMap_get_of_hasOwn _ _ hown
    · have hproto : sig.host.objectProto.hasOwn sig.event.type = false := by
        rcases hty with h1 | h1
        · exact absurd h1 hown
        · exact h1
      have hp : ¬ sig.host.hasProperty eventMap sig.event.type = true := by
        simp [Host.hasProperty, hown, hproto]
      rw [if_neg hp]
      exact Or.inl rfl

/-- C2 (amended), applied: a native host reporting `'prerender'`, and a fallback host
receiving `blur`. -/
theorem C2_current_by_mode_witness :
    (run ([] ++ [⟨nativeHost (.string "prerender"), ⟨"visibilitychange", 0⟩⟩])
        (_init (nativeHost (.string "visible")) initial))._visibilityState.current
      = (nativeHost (.string "prerender")).nativeState ∧
    ((run ([] ++ [⟨fallbackHost, ⟨"blur", 0⟩⟩])
        (_init fallbackHost initial))._visibilityState.current = STATE_VISIBLE ∨
     (run ([] ++ [⟨fallbackHost, ⟨"blur", 0⟩⟩])
        (_init fallbackHost initial))._visibilityState.current = STATE_HIDDEN) :=
  ⟨(C2_current_by_mode (_init (nativeHost (.string "visible")) initial) (by decide) []
      ⟨nativeHost (.string "prerender"), ⟨"visibilitychange", 0⟩⟩).1 (by decide),
   (C2_current_by_mode (_init fallbackHost initial) (by decide) []
      ⟨fallbackHost, ⟨"blur", 0⟩⟩).2 (by decide) (Or.inl (by decide))⟩

/-! ## C6 -/

/-- C6: for every argument whose `typeof` is not `'function'`, `subscribe` returns
`undefined` and leaves the whole module state, the registry included, as it was. -/
theorem C6_subscribe_non_callable (x : JSValue) (s : PVState)
    (hx : x.typeof ≠ "function") :
    subscribe x s = (s, .undefined) ∧
    (subscribe x s).1._callbacks = s._callbacks ∧
    (subscribe x s).1._callbacks.length = s._callbacks.length := by
  cases x <;> first | exact ⟨rfl, rfl, rfl⟩ | exact absurd rfl hx

/-- C6, applied to `undefined`, `null`, a number, a string and a plain object. -/
theorem C6_subscribe_non_callable_witness :
    (subscribe .undefined initial = (initial, .undefined) ∧
     subscribe .null initial = (initial, .undefined) ∧
     subscribe (.number 7) initial = (initial, .undefined) ∧
     subscribe (.string "f") initial = (initial, .undefined) ∧
     subscribe (.object 0) initial = (initial, .undefined)) :=
  ⟨(C6_subscribe_non_callable .undefined initial (by decide)).1,
   (C6_subscribe_non_callable .null initial (by decide)).1,
   (C6_subscribe_non_callable (.number 7) initial (by decide)).1,
   (C6_subscribe_non_callable (.string "f") initial (by decide)).1,
   (C6_subscribe_non_callable (.object 0) initial (by decide)).1⟩

/-! ## Facts about property lists -/

theorem Props.hasOwn_iff_mem_keys {α : Type} (o : Props α) (k : String) :
    Props.hasOwn o k = true ↔ k ∈ Props.keys o := by
  simp only [Props.hasOwn, Props.keys, List.any_eq_true, List.mem_map, beq_iff_eq]

theorem Props.hasOwn_cons {α : Type} (p : String × α) (o : Props α) (k : String) :
    Props.hasOwn (p :: o) k = (p.1 == k || Props.hasOwn o k) := by
  simp [Props.hasOwn]

theorem Props.getOwn_cons {α : Type} (p : String × α) (o : Props α) (k : String) :
    Props.getOwn (p :: o) k = if p.1 == k then some p.2 else Props.getOwn o k := by
  simp only [Props.getOwn, List.find?_cons]
  cases h : p.1 == k <;> simp

theorem Props.getOwn_eq_none {α : Type} (o : Props α) (k : String)
    (h : Props.hasOwn o k = false) : Props.getOwn o k = none := by
  induction o with
  | nil => rfl
  | cons p o ih =>
    rw [Props.hasOwn_cons, Bool.or_eq_false_iff] at h
    rw [Props.getOwn_cons, h.1, ih h.2]
    rfl

theorem Props.getOwn_mem_values {α : Type} (o : Props α) (k : String) (v : α)
    (h : Props.getOwn o k = some v) : v ∈ Props.values o := by
  induction o with
  | nil => simp [Props.getOwn] at h
  | cons p o ih =>
    rw [Props.getOwn_cons] at h
    simp only [Props.values, List.map_cons, List.mem_cons]
    cases hp : p.1 == k
    · rw [hp] at h
      exact Or.inr (ih h)
    · rw [hp] at h
      simp only [if_true, Option.some.injEq] at h
      exact Or.inl h.symm

theorem Props.delete_eq_self {α : Type} (o : Props α) (k : String)
    (h : Props.hasOwn o k = false) : Props.delete o k = o := by
  induction o with
  | nil => rfl
  | cons p o ih =>
    rw [Props.hasOwn_cons, Bool.or_eq_false_iff] at h
    have ih2 := ih h.2
    simp only [Props.delete] at ih2 ⊢
    simp [List.filter_cons, h.1, ih2]

theorem Props.hasOwn_delete_self {α : Type} (o : Props α) (k : String) :
    Props.hasOwn (Props.delete o k) k = false := by
  induction o with
  | nil => rfl
  | cons p o ih =>
    simp only [Props.delete] at ih ⊢
    rw [List.filter_cons]
    cases hp : p.1 == k
    · simp [Props.hasOwn_cons, hp, ih]
    · simp [ih]

theorem Props.keys_delete {α : Type} (o : Props α) (k : String) :
    Props.keys (Props.delete o k) = (Props.keys o).filter (fun x => !(x == k)) := by
  induction o with
  | nil => rfl
  | cons p o ih =>
    simp only [Props.delete, Props.keys] at ih ⊢
    rw [List.filter_cons]
    cases hp : p.1 == k <;> simp [List.filter_cons, hp, ih]

theorem Props.getOwn_delete_of_ne {α : Type} (o : Props α) (k k2 : String) (hne : k2 ≠ k) :
    Props.getOwn (Props.delete o k) k2 = Props.getOwn o k2 := by
  induction o with
  | nil => rfl
  | cons p o ih =>
    simp only [Props.delete] at ih ⊢
    rw [List.filter_cons]
    cases hp : p.1 == k
    · simp only [Bool.not_false, if_true]
      rw [Props.getOwn_cons, Props.getOwn_cons, ih]
    · simp only [Bool.not_true, Bool.false_eq_true, if_false]
      rw [Props.getOwn_cons, ih]
      have hk : p.1 = k := by simpa using hp
      have : (p.1 == k2) = false := by
        rw [hk]
        simpa using fun h => hne h.symm
      rw [this]
      rfl

/-- The assignment `o[k] = v` unfolded along the list, for an object (no key twice). -/
theorem Props.set_cons {α : Type} (p : String × α) (o : Props α) (k : String) (v : α)
    (hnd : (Props.keys (p :: o)).Nodup) :
    Props.set (p :: o) k v = if p.1 == k then (k, v) :: o else p :: Props.set o k v := by
  simp only [Props.keys, List.map_cons, List.nodup_cons] at hnd
  cases hp : p.1 == k
  · simp only [Props.set, Props.hasOwn_cons, hp, Bool.false_or, Bool.false_eq_true, if_false]
    have hne : ¬ p.1 = k := by simpa using hp
    cases ho : Props.hasOwn o k <;> simp [hne]
  · have hk : p.1 = k := by simpa using hp
    simp only [Props.set, Props.hasOwn_cons, hp, Bool.true_or, if_true, List.map_cons]
    congr 1
    have hmap : ∀ q ∈ o, (if (q.1 == k) = true then (k, v) else q) = q := by
      intro q hq
      have : q.1 ≠ k := by
        intro h
        apply hnd.1
        rw [hk, ← h]
        exact List.mem_map_of_mem Prod.fst hq
      simp [this]
    rw [List.map_congr_left hmap]
    simp

theorem Props.keys_set {α : Type} (o : Props α) (k : String) (v : α) :
    Props.keys (Props.set o k v) = if Props.hasOwn o k then Props.keys o else Props.keys o ++ [k] := by
  unfold Props.set Props.keys
  split
  · simp only [List.map_map]
    apply List.map_congr_left
    intro p _
    simp only [Function.comp]
    by_cases hp : p.1 = k <;> simp [hp]
  · simp

theorem Props.hasOwn_set_self {α : Type} (o : Props α) (k : String) (v : α) :
    Props.hasOwn (Props.set o k v) k = true := by
  rw [Props.hasOwn_iff_mem_keys, Props.keys_set]
  cases h : Props.hasOwn o k
  · simp
  · simpa using (Props.hasOwn_iff_mem_keys o k).1 h

theorem Props.getOwn_set_of_ne {α : Type} (o : Props α) (k k2 : String) (v : α)
    (hnd : (Props.keys o).Nodup) (hne : k2 ≠ k) : Props.getOwn (Props.set o k v) k2 = Props.getOwn o k2 := by
  induction o with
  | nil =>
    have : (k == k2) = false := by simpa using fun h => hne h.symm
    simp [Props.set, Props.hasOwn, Props.getOwn, this]
  | cons p o ih =>
    rw [Props.set_cons p o k v hnd]
    have hnd2 : (Props.keys o).Nodup := by
      simp only [Props.keys, List.map_cons, List.nodup_cons] at hnd
      exact hnd.2
    cases hp : p.1 == k
    · simp only [Bool.false_eq_true, if_false]
      rw [Props.getOwn_cons, Props.getOwn_cons, ih hnd2]
    · have hk : p.1 = k := by simpa using hp
      have h2 : (k == k2) = false := by simpa using fun h => hne h.symm
      simp only [if_true]
      rw [Props.getOwn_cons, Props.getOwn_cons, hk]
      simp [h2]

/-- Storing `v` under `k` adds one occurrence of `v` among the values, unless `k` already
held `v`. -/
theorem Props.count_values_set {α : Type} [DecidableEq α] (o : Props α) (k : String) (v : α)
    (hnd : (Props.keys o).Nodup) (hv : Props.getOwn o k ≠ some v) :
    (Props.values (Props.set o k v)).count v = (Props.values o).count v + 1 := by
  induction o with
  | nil => simp [Props.set, Props.hasOwn, Props.values]
  | cons p o ih =>
    rw [Props.set_cons p o k v hnd]
    have hnd2 : (Props.keys o).Nodup := by
      simp only [Props.keys, List.map_cons, List.nodup_cons] at hnd
      exact hnd.2
    rw [Props.getOwn_cons] at hv
    cases hp : p.1 == k
    · rw [hp] at hv
      simp only [Bool.false_eq_true, if_false] at hv ⊢
      have := ih hnd2 hv
      simp only [Props.values, List.map_cons, List.count_cons] at this ⊢
      omega
    · rw [hp] at hv
      simp only [if_true, ne_eq, Option.some.injEq] at hv
      simp only [if_true, Props.values, List.map_cons, List.count_cons]
      simp [hv]

/-! ## Facts about notification -/

theorem Props.getOwn_of_hasOwn {α : Type} (o : Props α) (k : String)
    (h : Props.hasOwn o k = true) : ∃ v, Props.getOwn o k = some v := by
  induction o with
  | nil => simp [Props.hasOwn] at h
  | cons p o ih =>
    rw [Props.hasOwn_cons] at h
    rw [Props.getOwn_cons]
    cases hp : p.1 == k
    · rw [hp] at h
      simpa using ih (by simpa using h)
    · exact ⟨p.2, by simp⟩

/-! ## Facts about `subscribe` and `unsubscribe` -/

theorem subscribe_function (f : Nat) (s : PVState) :
    subscribe (.function f) s =
      ({ s with idCounter := s.idCounter + 1,
                _callbacks := Props.set s._callbacks
                  ("pageVisibility_" ++ toString (s.idCounter + 1)) f },
       .string ("pageVisibility_" ++ toString (s.idCounter + 1))) := rfl

theorem unsubscribe_of_own (host : Host) (id : String) (s : PVState)
    (hd : s._isDestructing = false) (ho : Props.hasOwn s._callbacks id = true) :
    unsubscribe host id s = { s with _callbacks := Props.delete s._callbacks id } := by
  obtain ⟨f, hf⟩ := Props.getOwn_of_hasOwn _ _ ho
  simp [unsubscribe, callbackAt, hf, JSValue.truthy, hd]

theorem unsubscribe_of_not_own (host : Host) (id : String) (s : PVState)
    (ho : Props.hasOwn s._callbacks id = false) : unsubscribe host id s = s := by
  unfold unsubscribe
  split
  · rw [Props.delete_eq_self _ _ ho]
  · rfl

theorem unsubscribe_frame (host : Host) (id : String) (s : PVState) :
    (unsubscribe host id s).idCounter = s.idCounter ∧
    (unsubscribe host id s)._isNative = s._isNative ∧
    (unsubscribe host id s)._visibilityState = s._visibilityState ∧
    (unsubscribe host id s)._isDestructing = s._isDestructing ∧
    (unsubscribe host id s)._inited = s._inited ∧
    (unsubscribe host id s).listeners = s.listeners := by
  unfold unsubscribe
  split <;> simp

/-! ## C3 -/

theorem digitValue_digitChar (k : Nat) (hk : k < 10) : digitValue (Nat.digitChar k) = k := by
  interval_cases k <;> decide

theorem digitChar_ne_minus (k : Nat) (hk : k < 10) : Nat.digitChar k ≠ '-' := by
  interval_cases k <;> decide

theorem readDigits_toDigitsCore (fuel : Nat) :
    ∀ (n : Nat) (ds : List Char), n < fuel →
      readDigits 0 (Nat.toDigitsCore 10 fuel n ds) = readDigits n ds := by
  induction fuel with
  | zero => intro n ds h; omega
  | succ fuel ih =>
    intro n ds h
    have hmod : n % 10 < 10 := Nat.mod_lt _ (by decide)
    unfold Nat.toDigitsCore
    by_cases h0 : n / 10 = 0
    · simp only [h0, if_true]
      have hn : n % 10 = n := Nat.mod_eq_of_lt (by omega)
      rw [hn] at hmod ⊢
      simp [readDigits, digitValue_digitChar n hmod]
    · simp only [h0, if_false]
      rw [ih (n / 10) _ (by omega)]
      simp only [readDigits, List.foldl_cons, digitValue_digitChar _ hmod]
      congr 1
      omega

theorem toDigitsCore_head_ne_minus (fuel : Nat) :
    ∀ (n : Nat) (ds : List Char), 0 < fuel →
      ∃ c cs, Nat.toDigitsCore 10 fuel n ds = c :: cs ∧ c ≠ '-' := by
  induction fuel with
  | zero => intro n ds h; omega
  | succ fuel ih =>
    intro n ds _
    have hmod : n % 10 < 10 := Nat.mod_lt _ (by decide)
    unfold Nat.toDigitsCore
    by_cases h0 : n / 10 = 0
    · simp only [h0, if_true]
      exact ⟨_, _, rfl, digitChar_ne_minus _ hmod⟩
    · simp only [h0, if_false]
      cases fuel with
      | zero => exact ⟨_, _, rfl, digitChar_ne_minus _ hmod⟩
      | succ fuel => exact ih _ _ (by omega)

theorem readInt_toString (i : Int) : readInt (toString i).data = i := by
  cases i with
  | ofNat n =>
    show readInt (Nat.toDigits 10 n) = _
    obtain ⟨c, cs, hc, hne⟩ := toDigitsCore_head_ne_minus (n + 1) n [] (by omega)
    have hr := readDigits_toDigitsCore (n + 1) n [] (by omega)
    unfold Nat.toDigits
    rw [hc] at hr ⊢
    unfold readInt
    split
    · rename_i heq
      injection heq with h1 h2
      exact absurd h1 hne
    · rw [hr]; simp [readDigits]
  | negSucc n =>
    show readInt ('-' :: Nat.toDigits 10 (n + 1)) = _
    have hr := readDigits_toDigitsCore (n + 1 + 1) (n + 1) [] (by omega)
    unfold Nat.toDigits
    simp only [readInt, hr]
    simp [readDigits, Int.negSucc_eq]

theorem toString_int_injective (i j : Int) (h : toString i = toString j) : i = j := by
  have := congrArg (fun s => readInt s.data) h
  simpa [readInt_toString] using this

theorem uniqId_string_injective (i j : Int)
    (h : "pageVisibility_" ++ toString i = "pageVisibility_" ++ toString j) : i = j := by
  apply toString_int_injective
  have h2 := congrArg String.data h
  simp only [String.data_append] at h2
  exact String.ext (List.append_cancel_left h2)


theorem init_frame (host : Host) (s : PVState) :
    (_init host s).idCounter = s.idCounter ∧
    (_init host s)._callbacks = s._callbacks ∧
    (_init host s)._isDestructing = s._isDestructing := by
  unfold _init
  cases s._inited <;> cases host.hasHidden <;> cases host.hasWebkitHidden <;>
    cases host.hasOnfocusin <;> simp [setCurrent]

/-- A call never lowers the counter, and a call that hands back an identifier hands back the
one made from the counter it has just raised by one. -/
theorem counter_step (c : Call) (s : PVState) :
    s.idCounter ≤ (c.exec s).idCounter ∧
    ∀ id, c.issued s = some id →
      id = "pageVisibility_" ++ toString (s.idCounter + 1) ∧
      (c.exec s).idCounter = s.idCounter + 1 := by
  cases c with
  | subscribe callback =>
    cases callback <;> simp [Call.exec, Call.issued, subscribe, _uniqId]
  | unsubscribe host listenerId =>
    simp [Call.exec, Call.issued, (unsubscribe_frame host listenerId s).1]
  | onChange host event =>
    simp [Call.exec, Call.issued, (onChange_frame host event s).1]
  | init host => simp [Call.exec, Call.issued, (init_frame host s).1]
  | isHidden => simp [Call.exec, Call.issued]
  | getVisibilityState => simp [Call.exec, Call.issued]
  | isNativelySupported => simp [Call.exec, Call.issued]

/-- Every identifier handed back during a sequence of calls is made from a counter value
above the one the sequence started with. -/
theorem issuedIds_above (calls : List Call) :
    ∀ s : PVState, ∀ id ∈ issuedIds calls s,
      ∃ n : Int, s.idCounter < n ∧ id = "pageVisibility_" ++ toString n := by
  induction calls with
  | nil => intro s id h; simp [issuedIds] at h
  | cons c rest ih =>
    intro s id h
    obtain ⟨hle, hiss⟩ := counter_step c s
    have hrest : id ∈ issuedIds rest (c.exec s) →
        ∃ n : Int, s.idCounter < n ∧ id = "pageVisibility_" ++ toString n := by
      intro h2
      obtain ⟨n, hn, hid⟩ := ih (c.exec s) id h2
      exact ⟨n, by omega, hid⟩
    unfold issuedIds at h
    cases hc : c.issued s with
    | none =>
      rw [hc] at h
      exact hrest h
    | some id0 =>
      rw [hc] at h
      rcases List.mem_cons.1 h with h1 | h1
      · exact ⟨s.idCounter + 1, by omega, h1.trans (hiss id0 hc).1⟩
      · exact hrest h1

/-- C4: through every sequence of calls (subscribe and unsubscribe in any interleaving, and
any other use of the module in between), from every state, the identifiers handed back by
`subscribe` are pairwise distinct. -/
theorem C4_issued_ids_distinct (calls : List Call) :
    ∀ s : PVState, (issuedIds calls s).Nodup := by
  induction calls with
  | nil => intro s; simp [issuedIds]
  | cons c rest ih =>
    intro s
    unfold issuedIds
    cases hc : c.issued s with
    | none => exact ih _
    | some id0 =>
      simp only [List.nodup_cons]
      refine ⟨?_, ih _⟩
      intro hmem
      obtain ⟨hid, hcnt⟩ := (counter_step c s).2 id0 hc
      obtain ⟨n, hn, hid2⟩ := issuedIds_above rest (c.exec s) id0 hmem
      have := uniqId_string_injective _ _ (hid.symm.trans hid2)
      omega

/-! ## C5 -/

theorem Props.set_of_not_hasOwn {α : Type} (o : Props α) (k : String) (v : α)
    (h : Props.hasOwn o k = false) : Props.set o k v = o ++ [(k, v)] := by
  simp [Props.set, h]

/-- Under the registry invariant the identifiers still to come are not keys yet. -/
theorem registryOk_fresh (s : PVState) (hok : RegistryOk s) (n : Int)
    (hn : s.idCounter < n) :
    Props.hasOwn s._callbacks ("pageVisibility_" ++ toString n) = false := by
  cases h : Props.hasOwn s._callbacks ("pageVisibility_" ++ toString n) with
  | false => rfl
  | true =>
    exfalso
    obtain ⟨m, hm, heq⟩ := hok.2 _ ((Props.hasOwn_iff_mem_keys _ _).1 h)
    have := uniqId_string_injective _ _ heq
    omega

theorem registryOk_initial : RegistryOk initial := by
  constructor
  · simp [initial, Props.keys]
  · intro k hk
    simp [initial, Props.keys] at hk

/-- Every call preserves the registry invariant. -/
theorem registryOk_exec (c : Call) (s : PVState) (hok : RegistryOk s) :
    RegistryOk (c.exec s) := by
  cases c with
  | subscribe callback =>
    cases callback with
    | function f =>
      have hfresh := registryOk_fresh s hok (s.idCounter + 1) (by omega)
      simp only [Call.exec, subscribe_function]
      unfold RegistryOk
      simp only [Props.keys_set, hfresh, Bool.false_eq_true, if_false]
      constructor
      · have hk : "pageVisibility_" ++ toString (s.idCounter + 1) ∉ Props.keys s._callbacks := by
          rw [← Props.hasOwn_iff_mem_keys, hfresh]
          simp
        exact List.Nodup.append hok.1 (List.nodup_singleton _) (by simpa using hk)
      · intro k hk
        rcases List.mem_append.1 hk with h | h
        · obtain ⟨n, hn, hkn⟩ := hok.2 k h
          exact ⟨n, by omega, hkn⟩
        · exact ⟨s.idCounter + 1, le_refl _, by simpa using h⟩
    | undefined => exact hok
    | null => exact hok
    | bool b => exact hok
    | number n => exact hok
    | string str => exact hok
    | object ref => exact hok
  | unsubscribe host listenerId =>
    simp only [Call.exec]
    unfold unsubscribe
    split
    · unfold RegistryOk
      simp only [Props.keys_delete]
      exact ⟨hok.1.filter _, fun k hk => hok.2 k (List.mem_filter.1 hk).1⟩
    · exact hok
  | onChange host event =>
    obtain ⟨h1, -, h3, -, -, -⟩ := onChange_frame host event s
    simp only [Call.exec]
    unfold RegistryOk
    rw [h1, h3]
    exact hok
  | init host =>
    obtain ⟨h1, h2, -⟩ := init_frame host s
    simp only [Call.exec]
    unfold RegistryOk
    rw [h1, h2]
    exact hok
  | isHidden => exact hok
  | getVisibilityState => exact hok
  | isNativelySupported => exact hok

/-- The registry invariant holds in every state the module reaches from its initial one. -/
theorem registryOk_execAll (calls : List Call) :
    ∀ s : PVState, RegistryOk s → RegistryOk (execAll calls s) := by
  induction calls with
  | nil => intro s h; exact h
  | cons c rest ih =>
    intro s h
    simp only [execAll, List.foldl_cons]
    exact ih _ (registryOk_exec c s h)

/-- C7: `unsubscribe(id)` with an identifier that is not a key of the registry leaves the
whole module state as it was, and `unsubscribe` is idempotent: a second call with the same
identifier changes nothing more. -/
theorem C7_unsubscribe_unknown (host host2 : Host) (id : String) (s : PVState) :
    (Props.hasOwn s._callbacks id = false → unsubscribe host id s = s) ∧
    unsubscribe host2 id (unsubscribe host id s) = unsubscribe host id s := by
  refine ⟨unsubscribe_of_not_own host id s, ?_⟩
  cases hd : s._isDestructing with
  | true =>
    have hs : ∀ h : Host, unsubscribe h id s = s := by
      intro h
      simp [unsubscribe, hd]
    rw [hs host, hs host2]
  | false =>
    apply unsubscribe_of_not_own
    cases ho : Props.hasOwn s._callbacks id with
    | false => rw [unsubscribe_of_not_own host id s ho, ho]
    | true =>
      rw [unsubscribe_of_own host id s hd ho]
      exact Props.hasOwn_delete_self _ _

/-- C7, applied to an identifier that was never issued, on a registry with one entry. -/
theorem C7_unsubscribe_unknown_witness :
    unsubscribe fallbackHost "pageVisibility_5"
        (subscribe (.function 3) (_init fallbackHost initial)).1
      = (subscribe (.function 3) (_init fallbackHost initial)).1 :=
  (C7_unsubscribe_unknown fallbackHost fallbackHost "pageVisibility_5"
    (subscribe (.function 3) (_init fallbackHost initial)).1).1 (by decide)

/-! ## C8 -/

/-- C8: in fallback mode with teardown not active, from every prior state, a processed
signal of type focus, focusin or pageshow sets `current` to `'visible'`, and one of type
blur, focusout or pagehide sets it to `'hidden'`; after blur `isHidden()` is true, and after
a following focus `isHidden()` is false and the state record is
`{current: 'visible', prev: 'hidden'}`. -/
theorem C8_fallback_table (s : PVState) (hn : s._isNative = false)
    (hd : s._isDestructing = false) (sig sig2 : Signal) :
    ((sig.event.type = "focus" ∨ sig.event.type = "focusin" ∨ sig.event.type = "pageshow") →
      (process sig s).st._visibilityState.current = STATE_VISIBLE) ∧
    ((sig.event.type = "blur" ∨ sig.event.type = "focusout" ∨ sig.event.type = "pagehide") →
      (process sig s).st._visibilityState.current = STATE_HIDDEN) ∧
    (sig.event.type = "blur" →
      isHidden (process sig s).st = true ∧
      (sig2.event.type = "focus" →
        isHidden (process sig2 (process sig s).st).st = false ∧
        getVisibilityState (process sig2 (process sig s).st).st
          = { current := STATE_VISIBLE, prev := STATE_HIDDEN })) := by
  have key : ∀ (t : Signal) (u : PVState), u._isNative = false → u._isDestructing = false →
      eventMap.hasOwn t.event.type = true →
      (process t u).st._visibilityState.current = Props.getOwn eventMap t.event.type := by
    intro t u hun hud hown
    rw [process_current t u hud, hun]
    have hp : t.host.hasProperty eventMap t.event.type = true := by
      simp [Host.hasProperty, hown]
    simp only [Bool.false_eq_true, if_false, hp, if_true, Host.get]
    obtain ⟨v, hv⟩ := Props.getOwn_of_hasOwn _ _ hown
    rw [hv]
  have hblur : sig.event.type = "blur" →
      (process sig s).st._visibilityState.current = STATE_HIDDEN := by
    intro h
    have := key sig s hn hd (by rw [h]; decide)
    rw [h] at this
    exact Option.some.inj (this.trans rfl)
  refine ⟨?_, ?_, ?_⟩
  · intro h
    rcases h with h | h | h <;>
    · have := key sig s hn hd (by rw [h]; decide)
      rw [h] at this
      exact Option.some.inj (this.trans rfl)
  · intro h
    rcases h with h | h | h <;>
    · have := key sig s hn hd (by rw [h]; decide)
      rw [h] at this
      exact Option.some.inj (this.trans rfl)
  · intro h
    have hb := hblur h
    refine ⟨by simp [isHidden, hb], ?_⟩
    intro h2
    obtain ⟨-, hn2, -, hd2, -, -⟩ := onChange_frame sig.host (some sig.event) s
    have hn3 : (process sig s).st._isNative = false := hn2.trans hn
    have hd3 : (process sig s).st._isDestructing = false := hd2.trans hd
    have hc := key sig2 (process sig s).st hn3 hd3 (by rw [h2]; decide)
    rw [h2] at hc
    have hc2 : (process sig2 (process sig s).st).st._visibilityState.current
        = STATE_VISIBLE := Option.some.inj (hc.trans rfl)
    have hp : (process sig2 (process sig s).st).st._visibilityState.prev = STATE_HIDDEN :=
      (onChange_prev sig2.host (some sig2.event) _ hd3).trans hb
    refine ⟨by simp [isHidden, hc2]; decide, ?_⟩
    unfold getVisibilityState
    cases hvs : (process sig2 (process sig s).st).st._visibilityState with
    | mk c pv =>
      rw [hvs] at hc2 hp
      simp only at hc2 hp
      rw [hc2, hp]

/-- C8, applied to the freshly initialized fallback-mode module: blur, then focus. -/
theorem C8_fallback_table_witness :
    isHidden (process ⟨fallbackHost, ⟨"blur", 0⟩⟩ (_init fallbackHost initial)).st = true ∧
    isHidden (process ⟨fallbackHost, ⟨"focus", 1⟩⟩
      (process ⟨fallbackHost, ⟨"blur", 0⟩⟩ (_init fallbackHost initial)).st).st = false ∧
    getVisibilityState (process ⟨fallbackHost, ⟨"focus", 1⟩⟩
      (process ⟨fallbackHost, ⟨"blur", 0⟩⟩ (_init fallbackHost initial)).st).st
      = { current := STATE_VISIBLE, prev := STATE_HIDDEN } :=
  ⟨((C8_fallback_table (_init fallbackHost initial) (by decide) (by decide)
      ⟨fallbackHost, ⟨"blur", 0⟩⟩ ⟨fallbackHost, ⟨"focus", 1⟩⟩).2.2 (by decide)).1,
   ((C8_fallback_table (_init fallbackHost initial) (by decide) (by decide)
      ⟨fallbackHost, ⟨"blur", 0⟩⟩ ⟨fallbackHost, ⟨"focus", 1⟩⟩).2.2 (by decide)).2
      (by decide)⟩

/-! ## C9 -/

/-- The default branch of the change handler: in fallback mode a signal whose type is neither
a table entry nor the name of a property inherited from `Object.prototype` sets `current` to
`'visible'`. -/
theorem process_unmapped_type (s : PVState) (hn : s._isNative = false)
    (hd : s._isDestructing = false) (sig : Signal)
    (hown : eventMap.hasOwn sig.event.type = false)
    (hproto : sig.host.objectProto.hasOwn sig.event.type = false) :
    (process sig s).st._visibilityState.current = STATE_VISIBLE := by
  rw [process_current sig s hd, hn]
  simp [Host.hasProperty, hown, hproto]

/-- C9, evaluated at the failing input: in fallback mode the event type `'toString'` is not
one of the six table entries, yet `'toString' in eventMap` holds through `Object.prototype`,
so `current` becomes the inherited function and not `'visible'`. -/
theorem C9_inherited_type_name :
    isNativelySupported (_init fallbackHost initial) = false ∧
    eventMap.hasOwn "toString" = false ∧
    (process ⟨fallbackHost, ⟨"toString", 0⟩⟩
        (_init fallbackHost initial)).st._visibilityState.current = .function 1001 ∧
    (process ⟨fallbackHost, ⟨"toString", 0⟩⟩
        (_init fallbackHost initial)).st._visibilityState.current ≠ STATE_VISIBLE ∧
    (process ⟨fallbackHost, ⟨"constructor", 0⟩⟩
        (_init fallbackHost initial)).st._visibilityState.current ≠ STATE_VISIBLE := by
  decide

/-! ## C10 -/

/-- C10: in native mode the state after the change handler is determined by the native
indicator alone: two runs from the same state on hosts whose
`doc.webkitVisibilityState || doc.visibilityState` agree end in the same state, whatever
events they were given (any event object, or none at all) and whatever else the hosts hold;
with teardown not active `current` is that indicator value, so when it is `'hidden'` the
resulting `current` is `'hidden'` and `isHidden()` is true. -/
theorem C10_native_reads_indicator (s : PVState) (hn : s._isNative = true)
    (host1 host2 : Host) (hind : host1.nativeState = host2.nativeState)
    (e1 e2 : Option Event) :
    (_onChange host1 e1 s).st = (_onChange host2 e2 s).st ∧
    (s._isDestructing = false →
      (_onChange host1 e1 s).st._visibilityState.current = host1.nativeState ∧
      (host1.nativeState = STATE_HIDDEN →
        (_onChange host1 e1 s).st._visibilityState.current = STATE_HIDDEN ∧
        isHidden (_onChange host1 e1 s).st = true)) := by
  cases s with
  | mk c vs nat cbs d i ls =>
    simp only at hn
    subst hn
    cases d
    · simp only [_onChange, isNativelySupported, savePrev, setCurrent, Bool.false_eq_true,
        if_false, if_true, true_and, forall_const, hind]
      intro hh
      simp [isHidden, hh]
    · simp [_onChange]

/-- C10, applied: two native hosts reporting `'hidden'` (one through the vendor-prefixed
property, with a different `win.event`), and two unrelated events. -/
theorem C10_native_reads_indicator_witness :
    (_onChange (nativeHost (.string "hidden")) (some ⟨"visibilitychange", 0⟩)
        (_init (nativeHost (.string "visible")) initial)).st
      = (_onChange
          { nativeHost (.string "visible") with
            webkitVisibilityState := .string "hidden", winEvent := some ⟨"blur", 4⟩ }
          (some ⟨"focus", 9⟩)
        (_init (nativeHost (.string "visible")) initial)).st ∧
    isHidden (_onChange (nativeHost (.string "hidden")) (some ⟨"visibilitychange", 0⟩)
        (_init (nativeHost (.string "visible")) initial)).st = true :=
  ⟨(C10_native_reads_indicator (_init (nativeHost (.string "visible")) initial) (by decide)
      (nativeHost (.string "hidden"))
      { nativeHost (.string "visible") with
        webkitVisibilityState := .string "hidden", winEvent := some ⟨"blur", 4⟩ }
      (by decide) (some ⟨"visibilitychange", 0⟩) (some ⟨"focus", 9⟩)).1,
   (((C10_native_reads_indicator (_init (nativeHost (.string "visible")) initial) (by decide)
      (nativeHost (.string "hidden")) (nativeHost (.string "hidden")) rfl
      (some ⟨"visibilitychange", 0⟩) (some ⟨"focus", 9⟩)).2 (by decide)).2 (by decide)).2⟩

/-! ## Facts about sequences of calls -/

theorem execAll_cons (c : Call) (rest : List Call) (s : PVState) :
    execAll (c :: rest) s = execAll rest (c.exec s) := rfl

/-- C12: `isHidden()` is true exactly when `current` is `'hidden'`; it is false when
`current` is `'visible'` and false before any signal, when `current` is `undefined`; and
calling it leaves the whole module state (state record, registry, capability flag, counter)
as it was. -/
theorem C12_isHidden_query (s : PVState) :
    (isHidden s = true ↔ s._visibilityState.current = STATE_HIDDEN) ∧
    (s._visibilityState.current = STATE_VISIBLE → isHidden s = false) ∧
    (s._visibilityState.current = .undefined → isHidden s = false) ∧
    isHidden initial = false ∧
    Call.exec .isHidden s = s := by
  refine ⟨by simp [isHidden], ?_, ?_, by decide, rfl⟩
  · intro h
    simp only [isHidden, h]
    decide
  · intro h
    simp only [isHidden, h]
    decide

/-- C12, applied to the fallback-mode module after focus and to the module before any
signal. -/
theorem C12_isHidden_query_witness :
    isHidden (process ⟨fallbackHost, ⟨"focus", 0⟩⟩ (_init fallbackHost initial)).st = false ∧
    isHidden (_init fallbackHost initial) = false :=
  ⟨(C12_isHidden_query
      (process ⟨fallbackHost, ⟨"focus", 0⟩⟩ (_init fallbackHost initial)).st).2.1
      (by decide),
   (C12_isHidden_query (_init fallbackHost initial)).2.2.1 (by decide)⟩

/-! ## C13 -/

/-- C13: in the teardown condition `unsubscribe(id)` leaves the module state, the registry
included, as it was for every identifier (registered or not), and `_onChange` on any event
leaves the module state as it was, calls no subscriber and raises nothing. -/
theorem C13_teardown_is_inert (s : PVState) (hd : s._isDestructing = true) (host : Host)
    (id : String) (event : Option Event) :
    unsubscribe host id s = s ∧
    _onChange host event s = { st := s, calls := [], error := none } := by
  constructor
  · simp [unsubscribe, hd]
  · simp [_onChange, hd]

/-- C13, applied to a module in teardown whose registry holds `pageVisibility_0`. -/
theorem C13_teardown_is_inert_witness :
    Props.hasOwn teardownState._callbacks "pageVisibility_0" = true ∧
    unsubscribe fallbackHost "pageVisibility_0" teardownState = teardownState ∧
    _onChange fallbackHost (some ⟨"blur", 0⟩) teardownState
      = { st := teardownState, calls := [], error := none } :=
  ⟨by decide,
   C13_teardown_is_inert teardownState (by decide) fallbackHost "pageVisibility_0"
     (some ⟨"blur", 0⟩)⟩

/-! ## C14 -/

theorem init_inited (host : Host) (s : PVState) : (_init host s)._inited = true := by
  unfold _init
  cases h : s._inited
  · simp
  · simp [h]

theorem init_of_inited (host : Host) (s : PVState) (h : s._inited = true) :
    _init host s = s := by
  simp [_init, h]

theorem execAll_inited (calls : List Call) :
    ∀ s : PVState, s._inited = true → (execAll calls s)._inited = true := by
  induction calls with
  | nil => intro s h; exact h
  | cons c rest ih =>
    intro s h
    cases c with
    | subscribe callback =>
      apply ih
      cases callback <;> simp [Call.exec, PageVisibility.subscribe, _uniqId, h]
    | unsubscribe host listenerId =>
      exact ih _ ((unsubscribe_frame host listenerId s).2.2.2.2.1.trans h)
    | onChange host event =>
      exact ih _ ((onChange_frame host event s).2.2.2.2.1.trans h)
    | init host => exact ih _ (init_inited host s)
    | isHidden => exact ih _ h
    | getVisibilityState => exact ih _ h
    | isNativelySupported => exact ih _ h

/-- C14: a second `_init`, on the same or on any other host, right after a first one or after
any further calls, changes nothing: no listener is added and the capability flag, the state
record, the registry and the counter stay as they were. -/
theorem C14_init_idempotent (host host2 : Host) (s : PVState) (calls : List Call) :
    _init host2 (_init host s) = _init host s ∧
    _init host2 (execAll calls (_init host s)) = execAll calls (_init host s) :=
  ⟨init_of_inited host2 _ (init_inited host s),
   init_of_inited host2 _ (execAll_inited calls _ (init_inited host s))⟩

/-! ## C15 -/

/-- C15: on every host the first `_init` installs exactly one of three listener pathways,
chosen by priority. With a native indicator (standard or vendor-prefixed) it adds a single
listener on the document for the change notification, named `webkitvisibilitychange` when the
vendor-prefixed indicator is on the document and `visibilitychange` otherwise; else, with
`onfocusin` on the document, it attaches the handler to `onfocusin` and `onfocusout`; else it
adds it to the window for `focus` and `blur` with capturing enabled. -/
theorem C15_init_pathway (host : Host) :
    (_init host initial).listeners =
      if host.hasHidden || host.hasWebkitHidden then
        [.addEventListener .doc
          (if host.hasWebkitHidden then "webkitvisibilitychange" else "visibilitychange")
          none]
      else if host.hasOnfocusin then
        [.attachEvent .doc "onfocusin", .attachEvent .doc "onfocusout"]
      else
        [.addEventListener .win "focus" (some true),
         .addEventListener .win "blur" (some true)] := by
  unfold _init initial
  cases host.hasHidden <;> cases host.hasWebkitHidden <;> cases host.hasOnfocusin <;>
    simp [setCurrent]

/-! ## C16 -/

/-- Once `_init` has run, no call changes the guard flag or the capability flag. -/
theorem exec_isNative_of_inited (c : Call) (s : PVState) (hi : s._inited = true) :
    (c.exec s)._inited = true ∧ (c.exec s)._isNative = s._isNative := by
  cases c with
  | subscribe callback =>
    cases callback <;> simp [Call.exec, PageVisibility.subscribe, _uniqId, hi]
  | unsubscribe host listenerId =>
    obtain ⟨-, h2, -, -, h5, -⟩ := unsubscribe_frame host listenerId s
    exact ⟨h5.trans hi, h2⟩
  | onChange host event =>
    obtain ⟨-, h2, -, -, h5, -⟩ := onChange_frame host event s
    exact ⟨h5.trans hi, h2⟩
  | init host =>
    simp only [Call.exec, init_of_inited host s hi]
    exact ⟨hi, trivial⟩
  | isHidden => exact ⟨hi, rfl⟩
  | getVisibilityState => exact ⟨hi, rfl⟩
  | isNativelySupported => exact ⟨hi, rfl⟩

theorem execAll_isNative_of_inited (calls : List Call) :
    ∀ s : PVState, s._inited = true → (execAll calls s)._isNative = s._isNative := by
  induction calls with
  | nil => intro s _; rfl
  | cons c rest ih =>
    intro s hi
    obtain ⟨h1, h2⟩ := exec_isNative_of_inited c s hi
    rw [execAll_cons, ih (c.exec s) h1, h2]

/-- C16: `isNativelySupported()` returns the flag `self._isNative`; after initialization on a
host that flag is true exactly when `hidden` or `webkitHidden` is on the document, and it
keeps that value through every sequence of calls: subscribe, unsubscribe, the queries,
repeated `_init` on any host, and processed signals. -/
theorem C16_capability_flag_fixed (host : Host) (calls : List Call) :
    (∀ s : PVState, isNativelySupported s = s._isNative) ∧
    isNativelySupported (_init host initial) = (host.hasHidden || host.hasWebkitHidden) ∧
    isNativelySupported (execAll calls (_init host initial))
      = (host.hasHidden || host.hasWebkitHidden) := by
  refine ⟨fun _ => rfl, (init_initial host).2.1, ?_⟩
  unfold isNativelySupported
  rw [execAll_isNative_of_inited calls _ (init_inited host initial)]
  exact (init_initial host).2.1

/-! ## C17 -/

/-- C17, as stated, fails for initialization: on a host with the native indicator the first
`_init` sets `current` (here from `undefined` to `'visible'`). -/
theorem C17_counterexample :
    initial._visibilityState.current = .undefined ∧
    (_init (nativeHost (.string "visible")) initial)._visibilityState.current
      = .string "visible" ∧
    (_init (nativeHost (.string "visible")) initial)._visibilityState
      ≠ initial._visibilityState := by
  decide

/-- C17 (amended): `subscribe`, `unsubscribe`, `isHidden`, `getVisibilityState` and
`isNativelySupported` leave `current` and `prev` as they were, for every state and argument;
`_init` always leaves `prev`, and leaves `current` too when it has run before or the host has
no native indicator; the first `_init` on a host with the native indicator sets `current` to
the indicator value. -/
theorem C17_state_record_frame (s : PVState) (cb : JSValue) (host : Host) (id : String) :
    (subscribe cb s).1._visibilityState = s._visibilityState ∧
    (unsubscribe host id s)._visibilityState = s._visibilityState ∧
    (Call.exec .isHidden s)._visibilityState = s._visibilityState ∧
    (Call.exec .getVisibilityState s)._visibilityState = s._visibilityState ∧
    (Call.exec .isNativelySupported s)._visibilityState = s._visibilityState ∧
    (_init host s)._visibilityState.prev = s._visibilityState.prev ∧
    ((s._inited = true ∨ (host.hasHidden || host.hasWebkitHidden) = false) →
      (_init host s)._visibilityState = s._visibilityState) ∧
    (s._inited = false → (host.hasHidden || host.hasWebkitHidden) = true →
      (_init host s)._visibilityState.current = host.nativeState) := by
  refine ⟨?_, (unsubscribe_frame host id s).2.2.1, rfl, rfl, rfl, ?_, ?_, ?_⟩
  · cases cb <;> simp [subscribe, _uniqId]
  · unfold _init
    cases s._inited <;> cases host.hasHidden <;> cases host.hasWebkitHidden <;>
      cases host.hasOnfocusin <;> simp [setCurrent]
  · intro h
    rcases h with h | h
    · rw [init_of_inited host s h]
    · unfold _init
      rw [h]
      cases s._inited <;> cases host.hasOnfocusin <;> simp
  · intro hi hnat
    unfold _init
    rw [hi, hnat]
    simp [setCurrent]

/-- C17 (amended), applied: a first `_init` on a host without the native indicator, a
repeated `_init` on a native host, and a first `_init` on a native host. -/
theorem C17_state_record_frame_witness :
    (_init fallbackHost initial)._visibilityState = initial._visibilityState ∧
    (_init (nativeHost (.string "hidden"))
        (_init (nativeHost (.string "visible")) initial))._visibilityState
      = (_init (nativeHost (.string "visible")) initial)._visibilityState ∧
    (_init (nativeHost (.string "hidden")) initial)._visibilityState.current
      = (nativeHost (.string "hidden")).nativeState :=
  ⟨(C17_state_record_frame initial .undefined fallbackHost "").2.2.2.2.2.2.1
      (Or.inr (by decide)),
   (C17_state_record_frame (_init (nativeHost (.string "visible")) initial) .undefined
      (nativeHost (.string "hidden")) "").2.2.2.2.2.2.1 (Or.inl (by decide)),
   (C17_state_record_frame initial .undefined (nativeHost (.string "hidden"))
      "").2.2.2.2.2.2.2 (by decide) (by decide)⟩

/-! ## C18 -/

theorem Props.delete_append_singleton {α : Type} (o : Props α) (k : String) (v : α)
    (h : Props.hasOwn o k = false) : Props.delete (o ++ [(k, v)]) k = o := by
  have h2 := Props.delete_eq_self o k h
  simp only [Props.delete] at h2 ⊢
  rw [List.filter_append, h2]
  simp

/-- C19: with teardown not active and the registry invariant in force (both hold in every
state the module reaches by its own calls), subscribing and then unsubscribing the returned
identifier gives back the state as it was except for the counter, which is one higher; and in
every state `unsubscribe(id)` leaves the entries stored under other identifiers as they were,
in content and in order. -/
theorem C19_subscribe_then_unsubscribe (host : Host) (s : PVState) (f : Nat)
    (hd : s._isDestructing = false) (hok : RegistryOk s) :
    (∃ id, (subscribe (.function f) s).2 = .string id ∧
      unsubscribe host id (subscribe (.function f) s).1
        = { s with idCounter := s.idCounter + 1 } ∧
      (unsubscribe host id (subscribe (.function f) s).1)._callbacks = s._callbacks) ∧
    (∀ (host2 : Host) (id2 : String) (t : PVState),
      (unsubscribe host2 id2 t)._callbacks.filter (fun p => !(p.1 == id2))
        = t._callbacks.filter (fun p => !(p.1 == id2)) ∧
      ∀ k : String, k ≠ id2 →
        Props.getOwn (unsubscribe host2 id2 t)._callbacks k = Props.getOwn t._callbacks k) := by
  constructor
  · have hfresh := registryOk_fresh s hok (s.idCounter + 1) (by omega)
    have hcb : (subscribe (.function f) s).1._callbacks =
        s._callbacks ++ [("pageVisibility_" ++ toString (s.idCounter + 1), f)] := by
      rw [subscribe_function]
      exact Props.set_of_not_hasOwn _ _ _ hfresh
    have hown : Props.hasOwn (subscribe (.function f) s).1._callbacks
        ("pageVisibility_" ++ toString (s.idCounter + 1)) = true := by
      rw [subscribe_function]
      exact Props.hasOwn_set_self _ _ _
    have hun := unsubscribe_of_own host ("pageVisibility_" ++ toString (s.idCounter + 1))
      (subscribe (.function f) s).1 hd hown
    rw [hcb, Props.delete_append_singleton _ _ _ hfresh] at hun
    refine ⟨"pageVisibility_" ++ toString (s.idCounter + 1), rfl, ?_, ?_⟩
    · rw [hun]
      rfl
    · rw [hun]
  · intro host2 id2 t
    unfold unsubscribe
    split
    · constructor
      · simp [Props.delete, List.filter_filter]
      · intro k hk
        exact Props.getOwn_delete_of_ne _ _ _ hk
    · exact ⟨rfl, fun _ _ => rfl⟩

/-- C19, applied to the fallback-mode module that already has one subscriber. -/
theorem C19_subscribe_then_unsubscribe_witness :
    (∃ id, (subscribe (.function 7)
        (execAll [.init fallbackHost, .subscribe (.function 3)] initial)).2 = .string id ∧
      unsubscribe fallbackHost id (subscribe (.function 7)
        (execAll [.init fallbackHost, .subscribe (.function 3)] initial)).1
        = { execAll [.init fallbackHost, .subscribe (.function 3)] initial with
            idCounter :=
              (execAll [.init fallbackHost, .subscribe (.function 3)] initial).idCounter
                + 1 } ∧
      (unsubscribe fallbackHost id (subscribe (.function 7)
        (execAll [.init fallbackHost, .subscribe (.function 3)] initial)).1)._callbacks
        = (execAll [.init fallbackHost, .subscribe (.function 3)] initial)._callbacks) :=
  (C19_subscribe_then_unsubscribe fallbackHost
    (execAll [.init fallbackHost, .subscribe (.function 3)] initial) 7 (by decide)
    (registryOk_execAll [.init fallbackHost, .subscribe (.function 3)] initial
      registryOk_initial)).1

/-! ## C20 -/

theorem exec_counter_of_not_issued (c : Call) (s : PVState) (h : c.issued s = none) :
    (c.exec s).idCounter = s.idCounter := by
  cases c with
  | subscribe callback =>
    cases callback <;> simp_all [Call.exec, Call.issued, PageVisibility.subscribe, _uniqId]
  | unsubscribe host listenerId => exact (unsubscribe_frame host listenerId s).1
  | onChange host event => exact (onChange_frame host event s).1
  | init host => exact (init_frame host s).1
  | isHidden => rfl
  | getVisibilityState => rfl
  | isNativelySupported => rfl

/-- A call hands back an identifier exactly when it is a `subscribe` with a callable
argument. -/
theorem callableCount_cons (c : Call) (rest : List Call) (s : PVState) :
    callableCount (c :: rest) =
      callableCount rest + (if (c.issued s).isSome then 1 else 0) := by
  cases c with
  | subscribe callback =>
    cases callback <;> simp [callableCount, Call.issued, PageVisibility.subscribe, _uniqId]
  | unsubscribe host listenerId => simp [callableCount, Call.issued]
  | onChange host event => simp [callableCount, Call.issued]
  | init host => simp [callableCount, Call.issued]
  | isHidden => simp [callableCount, Call.issued]
  | getVisibilityState => simp [callableCount, Call.issued]
  | isNativelySupported => simp [callableCount, Call.issued]

/-- The identifiers handed back during a sequence of calls are made from the consecutive
counter values that follow the starting one. -/
theorem issuedIds_eq (calls : List Call) :
    ∀ s : PVState, issuedIds calls s =
      (List.range (callableCount calls)).map
        (fun i : Nat => "pageVisibility_" ++ toString (s.idCounter + 1 + (i : Int))) := by
  induction calls with
  | nil => intro s; simp [issuedIds, callableCount]
  | cons c rest ih =>
    intro s
    rw [callableCount_cons c rest s]
    unfold issuedIds
    cases hc : c.issued s with
    | none =>
      simp only [Option.isSome_none, Bool.false_eq_true, if_false, Nat.add_zero]
      rw [ih (c.exec s), exec_counter_of_not_issued c s hc]
    | some id =>
      obtain ⟨hid, hcnt⟩ := (counter_step c s).2 id hc
      simp only [Option.isSome_some, if_true]
      rw [ih (c.exec s), hcnt, List.range_succ_eq_map, List.map_cons, List.map_map, hid]
      congr 1
      · simp
      · apply List.map_congr_left
        intro i _
        simp only [Function.comp, Nat.succ_eq_add_one, Nat.cast_add, Nat.cast_one]
        congr 2
        omega

/-- C20: from the initial state, through every sequence of calls (subscribe with callable or
non-callable arguments, unsubscribe, queries, `_init`, processed signals), the identifiers
handed back are, in order, `pageVisibility_0`, `pageVisibility_1`, ... : the n-th `subscribe`
with a callable argument returns `'pageVisibility_'` followed by the decimal numeral of
n-1, and nothing else consumes an identifier. -/
theorem C20_identifiers_in_sequence (calls : List Call) :
    issuedIds calls initial = (List.range (callableCount calls)).map idOfNat ∧
    idOfNat 0 = "pageVisibility_0" := by
  refine ⟨?_, by decide⟩
  rw [issuedIds_eq calls initial]
  apply List.map_congr_left
  intro i _
  have h : initial.idCounter + 1 + (i : Int) = Int.ofNat i := by
    simp [initial]
  rw [h]
  rfl

end PageVisibility
